import Mathlib

/-!
# The alias-management request builder (`alias.go`)

A shallow embedding of `AliasService` and of its terminal operation `Do`.

* Go values of type `interface{}` are `Json` trees; a Go `map[string]interface{}`
  is an association list with unique keys, kept in the order the keys were first
  assigned (`GoMap.set`).
* A method with a pointer receiver is a function from the receiver's state to the
  receiver's new state; `Do` returns a `DoRun`, which records the builder after the
  call, the requests handed to the transport, what was printed, and the two Go
  return values.
* The collaborators that live outside `alias.go` are parameters: the client
  (`NewRequest` and the HTTP transport `c.Do`) and the text reader of
  `encoding/json` (`JsonLib`).
-/

namespace Elastic

/-! ## Values -/

/-- Go values that travel as JSON: what the builder stores in a request body and
what `encoding/json` reads from a response. A number keeps its literal text. -/
inductive Json where
  | null
  | bool (b : Bool)
  | num (literal : String)
  | str (s : String)
  | arr (items : List Json)
  | obj (members : List (String × Json))

/-- A Go `map[string]interface{}`: keys are unique, listed in the order of their
first assignment. -/
abbrev GoMap := List (String × Json)

/-- The assignment `m[k] = v` of Go: replaces the value of an existing key, adds
the key otherwise. -/
def GoMap.set : GoMap → String → Json → GoMap
  | [], k, v => [(k, v)]
  | (k', v') :: rest, k, v =>
    if k' = k then (k, v) :: rest else (k', v') :: GoMap.set rest k v

/-- The keys of a map. -/
def GoMap.keys (m : GoMap) : List String := m.map Prod.fst

/-- The lookup `m[k]` of Go, `none` for an absent key. -/
def GoMap.get (m : GoMap) (k : String) : Option Json := List.lookup k m

/-- The errors `Do` can return. `alias.go` creates none of them itself: each comes
from a collaborator and is handed on. -/
inductive GoError where
  | request (msg : String)
  | transport (msg : String)
  | service (status : Int) (body : String)
  | malformed (msg : String)
  | unmarshal (msg : String)
deriving DecidableEq, Repr

/-! ## Collaborators outside `alias.go` -/

/-- Modelled from the spec: the declaration of `Filter` is not under src/. The spec
describes it as an opaque value exposing one capability, to produce a
JSON-serializable representation of itself; `Source` is that capability
(`alias.go` line 96 calls nothing else). -/
structure Filter where
  Source : Json

/-- Modelled from the spec: `Request` (a named `http.Request`) and `SetBodyJson`
are not under src/. A request has a method, the URL it was created for and, once
`SetBodyJson` was called, the value to transmit as its JSON body. -/
structure Request where
  Method : String
  URL : String
  Body : Option Json

/-- Modelled from the spec: `Request.SetBodyJson` is not under src/; it stores the
value to be sent as the JSON body of the request. -/
def Request.SetBodyJson (req : Request) (data : Json) : Request :=
  { req with Body := some data }

/-- An HTTP response as `Do` reads it: the status code and the body text. -/
structure Response where
  StatusCode : Int
  Body : String
deriving DecidableEq, Repr

/-- The field `c` of `Client`, an `http.Client`: its `Do` sends a request and returns
a response or a transport error. -/
structure HttpClient where
  Do : Request → Except GoError Response

/-- The client a builder is created for. Its method `NewRequest(method, path)` and
its transport `c` are not under src/ and are taken as they come. -/
structure Client where
  NewRequest : String → String → Except GoError Request
  c : HttpClient

/-- Modelled from the spec: `checkResponse` is not under src/. The spec says that a
non-2xx status is treated uniformly as a service-level failure carrying the
response's status and body, and that a success status is not an error. -/
def checkResponse (res : Response) : Option GoError :=
  if 200 ≤ res.StatusCode ∧ res.StatusCode ≤ 299 then none
  else some (GoError.service res.StatusCode res.Body)

/-! ## `url.Values` -/

/-- The type `url.Values`: a map from a key to its values. -/
abbrev Values := List (String × List String)

/-- The method `Values.Set`: the key gets the single value given. -/
def Values.Set : Values → String → String → Values
  | [], k, v => [(k, [v])]
  | (k', vs) :: rest, k, v =>
    if k' = k then (k, [v]) :: rest else (k', vs) :: Values.Set rest k v

/-- A hexadecimal digit in upper case, as `url.QueryEscape` writes it. -/
def upperhex (n : Nat) : Char :=
  "0123456789ABCDEF".toList.getD n '0'

/-- The characters `url.QueryEscape` leaves as they are. -/
def unreservedChar (c : Char) : Bool :=
  c.isAlphanum || c = '-' || c = '_' || c = '.' || c = '~'

/-- One character under `url.QueryEscape`: unreserved characters stay, a blank
becomes `+`, every other character becomes `%XX` for each byte of its UTF-8 form. -/
def escapeChar (c : Char) : List Char :=
  if unreservedChar c then [c]
  else if c = ' ' then ['+']
  else (String.utf8EncodeChar c).flatMap
    (fun b => ['%', upperhex (b.toNat / 16), upperhex (b.toNat % 16)])

/-- The function `url.QueryEscape`. -/
def QueryEscape (s : String) : String :=
  String.mk (s.toList.flatMap escapeChar)

/-- The method `Values.Encode`: `key=value` pairs, escaped, sorted by key and joined
by `&`. -/
def Values.Encode (v : Values) : String :=
  let sorted := List.insertionSort (fun a b : String × List String => a.1 ≤ b.1) v
  let pairs := sorted.flatMap
    (fun kv => kv.2.map (fun x => QueryEscape kv.1 ++ "=" ++ QueryEscape x))
  "&".intercalate pairs

/-! ## The result and `encoding/json` -/

/-- The struct `AliasResult`: the tag of `Ok` is `json:"ok"`, the tag of `Ack` is
`json:"acknowledged"`. -/
structure AliasResult where
  Ok : Bool
  Ack : Bool
deriving DecidableEq, Repr

/-- The reading side of `encoding/json`, a library outside this repository.
`readValue` reads the JSON value at the start of a text or reports why it cannot.
`otherMember` is what the library does with an object member that is not a boolean
under one of the two tags of `AliasResult` (a key matched loosely, a value of another
type, an unknown key): it may change the target and may report an error.
`nonObject` is what it reports for a value that is not an object, leaving the target
as it is. -/
structure JsonLib where
  readValue : String → Except GoError Json
  otherMember : String → Json → AliasResult → AliasResult × Option GoError
  nonObject : Json → Option GoError

/-! ## The builder -/

/-- The struct `aliasAction`. The field `Type_` is the field `Type` of the source
(`"add"` or `"remove"`), `Filter` is `none` for a nil pointer. -/
structure aliasAction where
  Type_ : String
  Index : String
  Alias : String
  Filter : Option Filter

/-- The struct `AliasService`. -/
structure AliasService where
  client : Client
  actions : List aliasAction
  pretty : Bool
  debug : Bool

/-- The constructor `NewAliasService`: the client given, an empty action slice and
the zero value (false) of the two flags. -/
def NewAliasService (client : Client) : AliasService :=
  { client := client, actions := [], pretty := false, debug := false }

/-- The method `Pretty`. -/
def AliasService.Pretty (s : AliasService) (pretty : Bool) : AliasService :=
  { s with pretty := pretty }

/-- The method `Debug`. -/
def AliasService.Debug (s : AliasService) (debug : Bool) : AliasService :=
  { s with debug := debug }

/-- The method `Add`. -/
def AliasService.Add (s : AliasService) (indexName aliasName : String) : AliasService :=
  let action : aliasAction :=
    { Type_ := "add", Index := indexName, Alias := aliasName, Filter := none }
  { s with actions := s.actions ++ [action] }

/-- The method `AddWithFilter`; `filter` is `none` for a nil pointer. -/
def AliasService.AddWithFilter (s : AliasService) (indexName aliasName : String)
    (filter : Option Filter) : AliasService :=
  let action : aliasAction :=
    { Type_ := "add", Index := indexName, Alias := aliasName, Filter := filter }
  { s with actions := s.actions ++ [action] }

/-- The method `Remove`. -/
def AliasService.Remove (s : AliasService) (indexName aliasName : String) : AliasService :=
  let action : aliasAction :=
    { Type_ := "remove", Index := indexName, Alias := aliasName, Filter := none }
  { s with actions := s.actions ++ [action] }

/-! ## `Do` -/

/-- Lines 80 to 84 of `Do`: the query parameters and the value the local variable
`urls` has after them. -/
def AliasService.urls (s : AliasService) : String :=
  let urls := "/_aliases"
  let params : Values := []
  let params := if s.pretty then Values.Set params "pretty" (toString s.pretty) else params
  urls ++ "?" ++ Values.Encode params

/-- Lines 92 to 97 of `Do`: the details map of one action. -/
def detailsJson (action : aliasAction) : GoMap :=
  let detailsJson : GoMap := []
  let detailsJson := GoMap.set detailsJson "index" (Json.str action.Index)
  let detailsJson := GoMap.set detailsJson "alias" (Json.str action.Alias)
  match action.Filter with
  | some filter => GoMap.set detailsJson "filter" filter.Source
  | none => detailsJson

/-- Lines 91 to 98 of `Do`: the map built for one action, keyed by its type. -/
def actionJson (action : aliasAction) : GoMap :=
  let actionJson : GoMap := []
  GoMap.set actionJson action.Type_ (Json.obj (detailsJson action))

/-- Lines 88 to 100 of `Do`: the loop over the actions, appending one entry per
action to `actionsJson`. -/
def actionsJson (actions : List aliasAction) : List Json :=
  actions.foldl (fun acc action => acc ++ [Json.obj (actionJson action)]) []

/-- Lines 87 to 102 of `Do`: the body. -/
def AliasService.body (s : AliasService) : GoMap :=
  let body : GoMap := []
  GoMap.set body "actions" (Json.arr (actionsJson s.actions))

/-- What `Do` does that can be observed from outside, in order. -/
inductive Event where
  | printRequest (req : Request)
  | send (req : Request)
  | printResponse (res : Response)

/-- One object member decoded into an `AliasResult`: a boolean under the key `"ok"`
or `"acknowledged"`, the tags of the two fields, sets that field; anything else is
the library's business. -/
def decodeMember (lib : JsonLib) (ret : AliasResult) (key : String) (value : Json) :
    AliasResult × Option GoError :=
  match value with
  | Json.bool b =>
    if key = "ok" then ({ ret with Ok := b }, none)
    else if key = "acknowledged" then ({ ret with Ack := b }, none)
    else lib.otherMember key value ret
  | _ => lib.otherMember key value ret

/-- The members of an object decoded one after the other; the first error is the
one kept, and decoding goes on after it. -/
def decodeMembers (lib : JsonLib) :
    List (String × Json) → AliasResult × Option GoError → AliasResult × Option GoError
  | [], acc => acc
  | (key, value) :: rest, (ret, saved) =>
    let step := decodeMember lib ret key value
    decodeMembers lib rest (step.1, if saved.isSome then saved else step.2)

/-- The call `json.NewDecoder(body).Decode(ret)` for `ret` of type `*AliasResult`:
the target as the call leaves it, and the error returned. -/
def JsonLib.Decode (lib : JsonLib) (body : String) (ret : AliasResult) :
    AliasResult × Option GoError :=
  match lib.readValue body with
  | Except.error err => (ret, some err)
  | Except.ok (Json.obj members) => decodeMembers lib members (ret, none)
  | Except.ok value => (ret, lib.nonObject value)

/-- One call of `Do`: the builder after the call, the value of the local variable
`urls` when the call ends, what happened in order, and the two values returned
(`result` is `none` for a nil pointer, `err` is `none` for a nil error). -/
structure DoRun where
  builder : AliasService
  urls : String
  events : List Event
  result : Option AliasResult
  err : Option GoError

/-- The requests handed to the transport during a call, in order. -/
def DoRun.sent (run : DoRun) : List Request :=
  run.events.filterMap (fun e => match e with
    | Event.send req => some req
    | _ => none)

/-- The method `Do`. -/
def AliasService.Do (json : JsonLib) (s : AliasService) : DoRun :=
  -- Build url
  let urls := "/_aliases"
  -- Set up a new request
  match s.client.NewRequest "POST" urls with
  | Except.error err =>
    { builder := s, urls := urls, events := [], result := none, err := some err }
  | Except.ok req =>
    -- Parameters
    let urls := s.urls
    -- Actions, set body
    let req := req.SetBodyJson (Json.obj s.body)
    let printed := if s.debug then [Event.printRequest req] else []
    -- Get response
    match s.client.c.Do req with
    | Except.error err =>
      { builder := s, urls := urls, events := printed ++ [Event.send req],
        result := none, err := some err }
    | Except.ok res =>
      match checkResponse res with
      | some err =>
        { builder := s, urls := urls, events := printed ++ [Event.send req],
          result := none, err := some err }
      | none =>
        let printed' := if s.debug then [Event.printResponse res] else []
        let ret : AliasResult := { Ok := false, Ack := false }
        match json.Decode res.Body ret with
        | (_, some err) =>
          { builder := s, urls := urls,
            events := printed ++ [Event.send req] ++ printed',
            result := none, err := some err }
        | (ret, none) =>
          { builder := s, urls := urls,
            events := printed ++ [Event.send req] ++ printed',
            result := some ret, err := none }

/-- What is printed before the request is sent. -/
def AliasService.printedRequest (s : AliasService) (req : Request) : List Event :=
  if s.debug then [Event.printRequest req] else []

/-! ## Stand-ins for the collaborators, for concrete runs -/

/-- The body text `{"ok":b1,"acknowledged":b2}`. -/
def okAckText (b1 b2 : Bool) : String :=
  "\x7b\"ok\":" ++ toString b1 ++ ",\"acknowledged\":" ++ toString b2 ++ "\x7d"

/-- A reader that knows the four texts `okAckText b1 b2` and the text `{}`, and
reports every other text as malformed; it ignores members it does not know. -/
def stubJson : JsonLib where
  readValue := fun text =>
    if text = okAckText true true then
      Except.ok (Json.obj [("ok", Json.bool true), ("acknowledged", Json.bool true)])
    else if text = okAckText true false then
      Except.ok (Json.obj [("ok", Json.bool true), ("acknowledged", Json.bool false)])
    else if text = okAckText false true then
      Except.ok (Json.obj [("ok", Json.bool false), ("acknowledged", Json.bool true)])
    else if text = okAckText false false then
      Except.ok (Json.obj [("ok", Json.bool false), ("acknowledged", Json.bool false)])
    else if text = "\x7b\x7d" then Except.ok (Json.obj [])
    else Except.error (GoError.malformed text)
  otherMember := fun _ _ ret => (ret, none)
  nonObject := fun _ => some (GoError.unmarshal "not an object")

/-- A client whose requests are created for the path as given and whose transport
answers every request with the response `res`. -/
def stubClient (res : Response) : Client where
  NewRequest := fun method path => Except.ok { Method := method, URL := path, Body := none }
  c := { Do := fun _ => Except.ok res }

/-- A client whose transport fails with the error `err` on every request. -/
def failingClient (err : GoError) : Client where
  NewRequest := fun method path => Except.ok { Method := method, URL := path, Body := none }
  c := { Do := fun _ => Except.error err }

/-- A "remove" action whose Filter field holds a filter; no method of the builder
records one, the struct allows it. -/
def removeHoldingFilter : aliasAction :=
  { Type_ := "remove", Index := "logs-2023", Alias := "logs-current",
    Filter := some { Source := Json.str "f" } }

/-- The action that `Remove("logs-2023", "logs-current")` records. -/
def removeRecorded : aliasAction :=
  { Type_ := "remove", Index := "logs-2023", Alias := "logs-current", Filter := none }

/-- A builder holding the batch given, for the client that answers every request
with status 200 and the body `{"ok":true,"acknowledged":true}`. -/
def batchOf (actions : List aliasAction) : AliasService :=
  { client := stubClient { StatusCode := 200, Body := okAckText true true },
    actions := actions, pretty := false, debug := false }

/-! ## A reader for JSON text, as the stream decoder of `encoding/json` reads it

`json.NewDecoder(r).Decode(v)` reads one JSON value from the start of the stream and
leaves what follows it unread. `readJson` is that reading: it returns the value at
the start of a text together with the text left over. -/

/-- The four characters JSON counts as white space. -/
def isSpaceChar (c : Char) : Bool :=
  c = ' ' || c = '\t' || c = '\n' || c = '\r'

/-- A text without its leading white space. -/
def skipSpace : List Char → List Char
  | [] => []
  | c :: cs => if isSpaceChar c then skipSpace cs else c :: cs

/-- The leading decimal digits of a text, and the text after them. -/
def takeDigits : List Char → List Char × List Char
  | [] => ([], [])
  | c :: cs =>
    if c.isDigit then ((takeDigits cs).1.cons c, (takeDigits cs).2) else ([], c :: cs)

/-- The value of a hexadecimal digit. -/
def hexValue (c : Char) : Option Nat :=
  if c.isDigit then some (c.toNat - 48)
  else if 97 ≤ c.toNat ∧ c.toNat ≤ 102 then some (c.toNat - 87)
  else if 65 ≤ c.toNat ∧ c.toNat ≤ 70 then some (c.toNat - 55)
  else none

/-- Four hexadecimal digits at the start of a text: their value and the text after
them. -/
def readHex4 : List Char → Option (Nat × List Char)
  | a :: b :: c :: d :: rest =>
    match hexValue a, hexValue b, hexValue c, hexValue d with
    | some x, some y, some z, some w => some (((x * 16 + y) * 16 + z) * 16 + w, rest)
    | _, _, _, _ => none
  | _ => none

/-- The character a one-letter escape stands for. -/
def unescapeChar (c : Char) : Option Char :=
  if c = '"' then some '"'
  else if c = '\\' then some '\\'
  else if c = '/' then some '/'
  else if c = 'b' then some (Char.ofNat 8)
  else if c = 'f' then some (Char.ofNat 12)
  else if c = 'n' then some '\n'
  else if c = 'r' then some '\r'
  else if c = 't' then some '\t'
  else none

/-- The character of a `\u` escape with value `hi`, given the text after it: a high
surrogate followed by the escape of a low surrogate gives the character of the pair,
any other surrogate gives U+FFFD. -/
def unicodeEscape (hi : Nat) (rest : List Char) : Char × List Char :=
  if 0xD800 ≤ hi ∧ hi ≤ 0xDFFF then
    match rest with
    | '\\' :: 'u' :: more =>
      match readHex4 more with
      | some (lo, after) =>
        if hi ≤ 0xDBFF ∧ 0xDC00 ≤ lo ∧ lo ≤ 0xDFFF then
          (Char.ofNat (0x10000 + (hi - 0xD800) * 0x400 + (lo - 0xDC00)), after)
        else (Char.ofNat 0xFFFD, rest)
      | none => (Char.ofNat 0xFFFD, rest)
    | _ => (Char.ofNat 0xFFFD, rest)
  else (Char.ofNat hi, rest)

/-- The rest of a string literal, after its opening quote: the characters read so
far are in `acc`; returns the string and the text after the closing quote. -/
def readStringBody : Nat → List Char → List Char → Except GoError (String × List Char)
  | 0, _, _ => Except.error (GoError.malformed "string too long")
  | _ + 1, [], _ => Except.error (GoError.malformed "unexpected end of JSON input")
  | fuel + 1, c :: rest, acc =>
    if c = '"' then Except.ok (String.mk acc, rest)
    else if c = '\\' then
      match rest with
      | [] => Except.error (GoError.malformed "unexpected end of JSON input")
      | e :: rest' =>
        if e = 'u' then
          match readHex4 rest' with
          | some (hi, after) =>
            readStringBody fuel (unicodeEscape hi after).2 (acc ++ [(unicodeEscape hi after).1])
          | none => Except.error (GoError.malformed "invalid character in \\u escape")
        else
          match unescapeChar e with
          | some x => readStringBody fuel rest' (acc ++ [x])
          | none => Except.error (GoError.malformed "invalid character in string escape code")
    else if c.toNat < 32 then
      Except.error (GoError.malformed "invalid character in string literal")
    else readStringBody fuel rest (acc ++ [c])

/-- The exponent of a number, if one follows: `e` or `E`, an optional sign, digits. -/
def readExponent (cs : List Char) : Except GoError (List Char × List Char) :=
  match cs with
  | e :: rest =>
    if e = 'e' ∨ e = 'E' then
      match rest with
      | sign :: rest' =>
        if sign = '+' ∨ sign = '-' then
          if (takeDigits rest').1.isEmpty then
            Except.error (GoError.malformed "invalid character in exponent of numeric literal")
          else Except.ok (e :: sign :: (takeDigits rest').1, (takeDigits rest').2)
        else if (takeDigits rest).1.isEmpty then
          Except.error (GoError.malformed "invalid character in exponent of numeric literal")
        else Except.ok (e :: (takeDigits rest).1, (takeDigits rest).2)
      | [] => Except.error (GoError.malformed "unexpected end of JSON input")
    else Except.ok ([], cs)
  | [] => Except.ok ([], [])

/-- The fraction of a number, if one follows: a point and digits. -/
def readFraction (cs : List Char) : Except GoError (List Char × List Char) :=
  match cs with
  | '.' :: rest =>
    if (takeDigits rest).1.isEmpty then
      Except.error (GoError.malformed "invalid character after decimal point in numeric literal")
    else Except.ok ('.' :: (takeDigits rest).1, (takeDigits rest).2)
  | _ => Except.ok ([], cs)

/-- The integer part of a number: a single `0`, or a digit from 1 to 9 and digits. -/
def readInteger (cs : List Char) : Except GoError (List Char × List Char) :=
  match cs with
  | c :: rest =>
    if c = '0' then Except.ok (['0'], rest)
    else if c.isDigit then Except.ok (c :: (takeDigits rest).1, (takeDigits rest).2)
    else Except.error (GoError.malformed "invalid character in numeric literal")
  | [] => Except.error (GoError.malformed "unexpected end of JSON input")

/-- A number literal: its text and the text after it. -/
def readNumber (cs : List Char) : Except GoError (String × List Char) :=
  let signed : List Char × List Char :=
    match cs with
    | '-' :: rest => (['-'], rest)
    | _ => ([], cs)
  match readInteger signed.2 with
  | Except.error err => Except.error err
  | Except.ok (whole, rest) =>
    match readFraction rest with
    | Except.error err => Except.error err
    | Except.ok (frac, rest') =>
      match readExponent rest' with
      | Except.error err => Except.error err
      | Except.ok (expo, rest'') => Except.ok (String.mk (signed.1 ++ whole ++ frac ++ expo), rest'')

/-- The text after the literal word given, which the text has to start with. -/
def readWord : List Char → List Char → Except GoError (List Char)
  | [], cs => Except.ok cs
  | _ :: _, [] => Except.error (GoError.malformed "unexpected end of JSON input")
  | w :: ws, c :: cs =>
    if w = c then readWord ws cs
    else Except.error (GoError.malformed "invalid character in literal")

/-- The elements of a non-empty array, the text standing at its first element:
`readOne` reads one value. -/
def readItems (readOne : List Char → Except GoError (Json × List Char)) :
    Nat → List Char → List Json → Except GoError (List Json × List Char)
  | 0, _, _ => Except.error (GoError.malformed "array too long")
  | fuel + 1, cs, acc =>
    match readOne cs with
    | Except.error err => Except.error err
    | Except.ok (value, rest) =>
      match skipSpace rest with
      | ',' :: rest' => readItems readOne fuel rest' (acc ++ [value])
      | ']' :: rest' => Except.ok (acc ++ [value], rest')
      | [] => Except.error (GoError.malformed "unexpected end of JSON input")
      | _ => Except.error (GoError.malformed "invalid character after array element")

/-- The members of a non-empty object, the text standing after the white space that
precedes its first key: `readOne` reads one value. -/
def readMembers (readOne : List Char → Except GoError (Json × List Char)) :
    Nat → List Char → List (String × Json) → Except GoError (List (String × Json) × List Char)
  | 0, _, _ => Except.error (GoError.malformed "object too long")
  | fuel + 1, cs, acc =>
    match cs with
    | '"' :: rest =>
      match readStringBody (rest.length + 1) rest [] with
      | Except.error err => Except.error err
      | Except.ok (key, afterKey) =>
        match skipSpace afterKey with
        | ':' :: afterColon =>
          match readOne afterColon with
          | Except.error err => Except.error err
          | Except.ok (value, rest') =>
            match skipSpace rest' with
            | ',' :: more => readMembers readOne fuel (skipSpace more) (acc ++ [(key, value)])
            | '\x7d' :: more => Except.ok (acc ++ [(key, value)], more)
            | [] => Except.error (GoError.malformed "unexpected end of JSON input")
            | _ => Except.error (GoError.malformed "invalid character after object key:value pair")
        | [] => Except.error (GoError.malformed "unexpected end of JSON input")
        | _ => Except.error (GoError.malformed "invalid character after object key")
    | [] => Except.error (GoError.malformed "unexpected end of JSON input")
    | _ => Except.error (GoError.malformed "invalid character looking for beginning of object key string")

/-- The JSON value at the start of a text, after white space, and the text left
after it. `fuel` bounds the nesting depth; the length of the text is enough. -/
def readJson : Nat → List Char → Except GoError (Json × List Char)
  | 0 => fun _ => Except.error (GoError.malformed "nesting too deep")
  | fuel + 1 => fun text =>
    match skipSpace text with
    | [] => Except.error (GoError.malformed "EOF")
    | c :: rest =>
      if c = '\x7b' then
        match skipSpace rest with
        | '\x7d' :: more => Except.ok (Json.obj [], more)
        | inner =>
          match readMembers (readJson fuel) (inner.length + 1) inner [] with
          | Except.error err => Except.error err
          | Except.ok (members, more) => Except.ok (Json.obj members, more)
      else if c = '[' then
        match skipSpace rest with
        | ']' :: more => Except.ok (Json.arr [], more)
        | inner =>
          match readItems (readJson fuel) (inner.length + 1) inner [] with
          | Except.error err => Except.error err
          | Except.ok (items, more) => Except.ok (Json.arr items, more)
      else if c = '"' then
        match readStringBody (rest.length + 1) rest [] with
        | Except.error err => Except.error err
        | Except.ok (str, more) => Except.ok (Json.str str, more)
      else if c = '-' ∨ c.isDigit then
        match readNumber (c :: rest) with
        | Except.error err => Except.error err
        | Except.ok (literal, more) => Except.ok (Json.num literal, more)
      else if c = 't' then
        match readWord "true".toList (c :: rest) with
        | Except.error err => Except.error err
        | Except.ok more => Except.ok (Json.bool true, more)
      else if c = 'f' then
        match readWord "false".toList (c :: rest) with
        | Except.error err => Except.error err
        | Except.ok more => Except.ok (Json.bool false, more)
      else if c = 'n' then
        match readWord "null".toList (c :: rest) with
        | Except.error err => Except.error err
        | Except.ok more => Except.ok (Json.null, more)
      else Except.error (GoError.malformed "invalid character looking for beginning of value")

/-- A text is well-formed JSON when it is one JSON value, with nothing but white
space around it. -/
def wellFormedJson (text : String) : Bool :=
  match readJson (text.length + 1) text.toList with
  | Except.ok (_, rest) => (skipSpace rest).isEmpty
  | Except.error _ => false

/-- A letter folded as `strings.EqualFold` folds it towards the lower-case ASCII
letters: upper-case ASCII letters, the Kelvin sign (for `k`) and the long s (for
`s`). -/
def foldChar (c : Char) : Char :=
  if c.toNat = 0x212A then 'k'
  else if c.toNat = 0x17F then 's'
  else c.toLower

/-- Whether a key matches a tag made of lower-case ASCII letters up to case. -/
def foldsTo (key tag : String) : Bool :=
  key.toList.map foldChar = tag.toList

/-- The library as current Go releases document it, on the stream decoder: the value
at the start of the text is read and the rest is left unread; a key matches a field
by its tag, exactly or else up to case; `null` leaves a field as it is; a value that
is not a boolean is a type error that leaves the field as it is; unknown keys are
skipped; `null` in place of the object is accepted, any other value is a type
error. -/
def goJson : JsonLib where
  readValue := fun text =>
    match readJson (text.length + 1) text.toList with
    | Except.ok (value, _) => Except.ok value
    | Except.error err => Except.error err
  otherMember := fun key value ret =>
    if foldsTo key "ok" ∨ foldsTo key "acknowledged" then
      match value with
      | Json.bool b => if foldsTo key "ok" then ({ ret with Ok := b }, none)
        else ({ ret with Ack := b }, none)
      | Json.null => (ret, none)
      | _ => (ret, some (GoError.unmarshal ("cannot unmarshal into field " ++ key ++ " of type bool")))
    else (ret, none)
  nonObject := fun value =>
    match value with
    | Json.null => none
    | _ => some (GoError.unmarshal "cannot unmarshal into Go value of type elastic.AliasResult")

/-- The body `{"ok":true,"acknowledged":true}` followed by text that is not JSON. -/
def bodyWithTrailingText : String :=
  okAckText true true ++ "<html>garbage"

/-! ## Recording calls, as the claims speak of them -/

/-- One of the three recording calls with its arguments. -/
inductive Call where
  | Add (indexName aliasName : String)
  | AddWithFilter (indexName aliasName : String) (filter : Option Filter)
  | Remove (indexName aliasName : String)

/-- The builder after one recording call. -/
def Call.run (s : AliasService) : Call → AliasService
  | Call.Add i a => s.Add i a
  | Call.AddWithFilter i a f => s.AddWithFilter i a f
  | Call.Remove i a => s.Remove i a

/-- The builder after a sequence of recording calls, made in order. -/
def runCalls (s : AliasService) (calls : List Call) : AliasService :=
  calls.foldl Call.run s

/-- The key the payload entry of a call is expected under. -/
def Call.key : Call → String
  | Call.Add _ _ => "add"
  | Call.AddWithFilter _ _ _ => "add"
  | Call.Remove _ _ => "remove"

/-- The index name a call was made with. -/
def Call.indexName : Call → String
  | Call.Add i _ => i
  | Call.AddWithFilter i _ _ => i
  | Call.Remove i _ => i

/-- The alias name a call was made with. -/
def Call.aliasName : Call → String
  | Call.Add _ a => a
  | Call.AddWithFilter _ a _ => a
  | Call.Remove _ a => a

/-- The action a call is expected to record. -/
def Call.action : Call → aliasAction
  | Call.Add i a => { Type_ := "add", Index := i, Alias := a, Filter := none }
  | Call.AddWithFilter i a f => { Type_ := "add", Index := i, Alias := a, Filter := f }
  | Call.Remove i a => { Type_ := "remove", Index := i, Alias := a, Filter := none }

/-! ## Calls of any method, and a transport that changes between calls -/

/-- One call of a method of the builder, with its arguments; `Do` comes with the JSON
library at work during the call. -/
inductive Op where
  | Pretty (pretty : Bool)
  | Debug (debug : Bool)
  | Add (indexName aliasName : String)
  | AddWithFilter (indexName aliasName : String) (filter : Option Filter)
  | Remove (indexName aliasName : String)
  | Do (json : JsonLib)

/-- The builder after one call; after `Do` it is the builder the call leaves. -/
def Op.run (s : AliasService) : Op → AliasService
  | Op.Pretty b => s.Pretty b
  | Op.Debug b => s.Debug b
  | Op.Add i a => s.Add i a
  | Op.AddWithFilter i a f => s.AddWithFilter i a f
  | Op.Remove i a => s.Remove i a
  | Op.Do json => (s.Do json).builder

/-- The builder after a sequence of calls, made in order. -/
def runOps (s : AliasService) (ops : List Op) : AliasService :=
  ops.foldl Op.run s

/-- The same builder at a moment when the transport of its client behaves as `c`:
what a later call of `Do` meets when the network answers differently. -/
def AliasService.withTransport (s : AliasService) (c : HttpClient) : AliasService :=
  { s with client := { s.client with c := c } }

/-- The invariant of an action: its type is "add" or "remove", and a "remove" holds
no filter. -/
def aliasAction.wellFormed (action : aliasAction) : Prop :=
  (action.Type_ = "add" ∨ action.Type_ = "remove") ∧
  (action.Type_ = "remove" → action.Filter = none)

/-! ## Lemmas on the serialization loop -/

theorem actionsJson_foldl (actions : List aliasAction) (acc : List Json) :
    actions.foldl (fun acc action => acc ++ [Json.obj (actionJson action)]) acc
      = acc ++ actions.map (fun action => Json.obj (actionJson action)) := by
  induction actions generalizing acc with
  | nil => simp
  | cons a rest ih => simp [List.foldl, ih]

theorem actionsJson_eq_map (actions : List aliasAction) :
    actionsJson actions = actions.map (fun action => Json.obj (actionJson action)) := by
  simp [actionsJson, actionsJson_foldl]

theorem actionsJson_append (xs ys : List aliasAction) :
    actionsJson (xs ++ ys) = actionsJson xs ++ actionsJson ys := by
  simp [actionsJson_eq_map]

theorem actionsJson_length (actions : List aliasAction) :
    (actionsJson actions).length = actions.length := by
  simp [actionsJson_eq_map]

theorem detailsJson_nil_filter (action : aliasAction) (h : action.Filter = none) :
    detailsJson action
      = [("index", Json.str action.Index), ("alias", Json.str action.Alias)] := by
  simp [detailsJson, h, GoMap.set]

theorem detailsJson_with_filter (action : aliasAction) (f : Filter)
    (h : action.Filter = some f) :
    detailsJson action
      = [("index", Json.str action.Index), ("alias", Json.str action.Alias),
         ("filter", f.Source)] := by
  simp [detailsJson, h, GoMap.set]

theorem detailsJson_index (action : aliasAction) :
    (detailsJson action).get "index" = some (Json.str action.Index) := by
  cases h : action.Filter with
  | none => rw [detailsJson_nil_filter action h]; simp [GoMap.get, List.lookup]
  | some f => rw [detailsJson_with_filter action f h]; simp [GoMap.get, List.lookup]

theorem detailsJson_alias (action : aliasAction) :
    (detailsJson action).get "alias" = some (Json.str action.Alias) := by
  cases h : action.Filter with
  | none => rw [detailsJson_nil_filter action h]; simp [GoMap.get, List.lookup]
  | some f => rw [detailsJson_with_filter action f h]; simp [GoMap.get, List.lookup]

theorem actionJson_eq (action : aliasAction) :
    actionJson action = [(action.Type_, Json.obj (detailsJson action))] := by
  simp [actionJson, GoMap.set]

theorem body_eq (s : AliasService) :
    s.body = [("actions", Json.arr (actionsJson s.actions))] := by
  simp [AliasService.body, GoMap.set]

/-! ## Lemmas on recording -/

theorem Call_run_actions (s : AliasService) (call : Call) :
    (call.run s).actions = s.actions ++ [call.action] := by
  cases call <;> rfl

theorem runCalls_actions (s : AliasService) (calls : List Call) :
    (runCalls s calls).actions = s.actions ++ calls.map Call.action := by
  induction calls generalizing s with
  | nil => simp [runCalls]
  | cons c rest ih =>
    have h := ih (c.run s)
    simp only [runCalls, List.foldl] at h ⊢
    rw [h, Call_run_actions]
    simp

theorem runCalls_frame (s : AliasService) (calls : List Call) :
    (runCalls s calls).client = s.client := by
  induction calls generalizing s with
  | nil => rfl
  | cons c rest ih =>
    have h := ih (c.run s)
    simp only [runCalls, List.foldl] at h ⊢
    rw [h]; cases c <;> rfl

theorem Call_action_type (call : Call) : call.action.Type_ = call.key := by
  cases call <;> rfl

theorem Call_action_index (call : Call) : call.action.Index = call.indexName := by
  cases call <;> rfl

theorem Call_action_alias (call : Call) : call.action.Alias = call.aliasName := by
  cases call <;> rfl

theorem detailsJson_index_call (call : Call) :
    (detailsJson call.action).get "index" = some (Json.str call.indexName) := by
  rw [detailsJson_index, Call_action_index]

theorem detailsJson_alias_call (call : Call) :
    (detailsJson call.action).get "alias" = some (Json.str call.aliasName) := by
  rw [detailsJson_alias, Call_action_alias]

/-! ## Lemmas on `Do` -/

theorem Do_of_transport_error (json : JsonLib) (s : AliasService) (req : Request)
    (e : GoError)
    (hreq : s.client.NewRequest "POST" "/_aliases" = Except.ok req)
    (hres : s.client.c.Do (req.SetBodyJson (Json.obj s.body)) = Except.error e) :
    s.Do json =
      { builder := s, urls := s.urls,
        events := s.printedRequest (req.SetBodyJson (Json.obj s.body))
          ++ [Event.send (req.SetBodyJson (Json.obj s.body))],
        result := none, err := some e } := by
  unfold AliasService.Do
  simp only [hreq, hres, AliasService.printedRequest]

theorem Do_of_status_error (json : JsonLib) (s : AliasService) (req : Request)
    (res : Response) (e : GoError)
    (hreq : s.client.NewRequest "POST" "/_aliases" = Except.ok req)
    (hres : s.client.c.Do (req.SetBodyJson (Json.obj s.body)) = Except.ok res)
    (hc : checkResponse res = some e) :
    s.Do json =
      { builder := s, urls := s.urls,
        events := s.printedRequest (req.SetBodyJson (Json.obj s.body))
          ++ [Event.send (req.SetBodyJson (Json.obj s.body))],
        result := none, err := some e } := by
  unfold AliasService.Do
  simp only [hreq, hres, hc, AliasService.printedRequest]

theorem Do_of_decode_error (json : JsonLib) (s : AliasService) (req : Request)
    (res : Response) (ret : AliasResult) (e : GoError)
    (hreq : s.client.NewRequest "POST" "/_aliases" = Except.ok req)
    (hres : s.client.c.Do (req.SetBodyJson (Json.obj s.body)) = Except.ok res)
    (hc : checkResponse res = none)
    (hdec : json.Decode res.Body { Ok := false, Ack := false } = (ret, some e)) :
    s.Do json =
      { builder := s, urls := s.urls,
        events := s.printedRequest (req.SetBodyJson (Json.obj s.body))
          ++ [Event.send (req.SetBodyJson (Json.obj s.body))]
          ++ (if s.debug then [Event.printResponse res] else []),
        result := none, err := some e } := by
  unfold AliasService.Do
  simp only [hreq, hres, hc, hdec, AliasService.printedRequest]

theorem Do_of_decoded (json : JsonLib) (s : AliasService) (req : Request)
    (res : Response) (ret : AliasResult)
    (hreq : s.client.NewRequest "POST" "/_aliases" = Except.ok req)
    (hres : s.client.c.Do (req.SetBodyJson (Json.obj s.body)) = Except.ok res)
    (hc : checkResponse res = none)
    (hdec : json.Decode res.Body { Ok := false, Ack := false } = (ret, none)) :
    s.Do json =
      { builder := s, urls := s.urls,
        events := s.printedRequest (req.SetBodyJson (Json.obj s.body))
          ++ [Event.send (req.SetBodyJson (Json.obj s.body))]
          ++ (if s.debug then [Event.printResponse res] else []),
        result := some ret, err := none } := by
  unfold AliasService.Do
  simp only [hreq, hres, hc, hdec, AliasService.printedRequest]

theorem sent_printed_send (s : AliasService) (req : Request) (tail : List Event)
    (htail : ∀ e ∈ tail, ∃ res, e = Event.printResponse res) (run : DoRun)
    (hrun : run.events = s.printedRequest req ++ [Event.send req] ++ tail) :
    run.sent = [req] := by
  have htl : tail.filterMap (fun e => match e with
      | Event.send req => some req
      | _ => none) = [] := by
    rw [List.filterMap_eq_nil_iff]
    intro e he
    obtain ⟨res, rfl⟩ := htail e he
    rfl
  unfold DoRun.sent
  rw [hrun]
  cases hd : s.debug <;>
    simp [AliasService.printedRequest, hd, List.filterMap_append, htl]

theorem Do_sent_of_request (json : JsonLib) (s : AliasService) (req : Request)
    (hreq : s.client.NewRequest "POST" "/_aliases" = Except.ok req) :
    (s.Do json).sent = [req.SetBodyJson (Json.obj s.body)] := by
  cases hres : s.client.c.Do (req.SetBodyJson (Json.obj s.body)) with
  | error e =>
    apply sent_printed_send s _ []
    · simp
    · rw [Do_of_transport_error json s req e hreq hres]; simp
  | ok res =>
    cases hc : checkResponse res with
    | some e =>
      apply sent_printed_send s _ []
      · simp
      · rw [Do_of_status_error json s req res e hreq hres hc]; simp
    | none =>
      cases hdec : json.Decode res.Body { Ok := false, Ack := false } with
      | mk ret e =>
        cases e with
        | none =>
          apply sent_printed_send s _ (if s.debug then [Event.printResponse res] else [])
          · intro e he; split at he <;> simp at he; exact ⟨res, he⟩
          · rw [Do_of_decoded json s req res ret hreq hres hc hdec]
        | some e =>
          apply sent_printed_send s _ (if s.debug then [Event.printResponse res] else [])
          · intro e he; split at he <;> simp at he; exact ⟨res, he⟩
          · rw [Do_of_decode_error json s req res ret e hreq hres hc hdec]

theorem Do_sent_of_request_error (json : JsonLib) (s : AliasService) (e : GoError)
    (hreq : s.client.NewRequest "POST" "/_aliases" = Except.error e) :
    (s.Do json).sent = [] ∧ (s.Do json).result = none ∧ (s.Do json).err = some e := by
  unfold AliasService.Do
  simp [hreq, DoRun.sent]

theorem Do_result_none_of_err (json : JsonLib) (s : AliasService) (e : GoError)
    (herr : (s.Do json).err = some e) : (s.Do json).result = none := by
  cases hreq : s.client.NewRequest "POST" "/_aliases" with
  | error e' => exact (Do_sent_of_request_error json s e' hreq).2.1
  | ok req =>
    cases hres : s.client.c.Do (req.SetBodyJson (Json.obj s.body)) with
    | error e' => rw [Do_of_transport_error json s req e' hreq hres]
    | ok res =>
      cases hc : checkResponse res with
      | some e' => rw [Do_of_status_error json s req res e' hreq hres hc]
      | none =>
        cases hdec : json.Decode res.Body { Ok := false, Ack := false } with
        | mk ret e' =>
          cases e' with
          | none =>
            rw [Do_of_decoded json s req res ret hreq hres hc hdec] at herr
            cases herr
          | some e' => rw [Do_of_decode_error json s req res ret e' hreq hres hc hdec]

theorem Do_sent_ignores_pretty (json : JsonLib) (s : AliasService) (b : Bool) :
    ((s.Pretty b).Do json).sent = (s.Do json).sent := by
  have hbody : (s.Pretty b).body = s.body := rfl
  cases hreq : s.client.NewRequest "POST" "/_aliases" with
  | error e =>
    rw [(Do_sent_of_request_error json s e hreq).1,
      (Do_sent_of_request_error json (s.Pretty b) e hreq).1]
  | ok req =>
    rw [Do_sent_of_request json s req hreq,
      Do_sent_of_request json (s.Pretty b) req hreq, hbody]

theorem not_wellFormedJson_of_unreadable (text : String) (e : GoError)
    (h : goJson.readValue text = Except.error e) : wellFormedJson text = false := by
  unfold wellFormedJson
  simp only [goJson] at h
  cases hr : readJson (text.length + 1) text.toList with
  | error err => rfl
  | ok pair => rw [hr] at h; cases h

/-! ## The payload -/

/-- C1: after any sequence of N calls to Add, AddWithFilter and Remove on a fresh
builder, the body `Do` builds is the map with the single key "actions", whose value
is a list of N entries; the i-th entry is a map with the single key "add" (for Add
and AddWithFilter) or "remove" (for Remove), whose details hold the i-th call's
index name under "index" and its alias name under "alias". That body is the body of
the one request `Do` hands to the transport whenever the request can be created. -/
theorem C1_actions_one_entry_per_call (client : Client) (calls : List Call) :
    ∃ entries : List Json,
      (runCalls (NewAliasService client) calls).body = [("actions", Json.arr entries)] ∧
      entries.length = calls.length ∧
      (∀ (i : Nat) (call : Call), calls[i]? = some call →
        ∃ details : GoMap,
          entries[i]? = some (Json.obj [(call.key, Json.obj details)]) ∧
          details.get "index" = some (Json.str call.indexName) ∧
          details.get "alias" = some (Json.str call.aliasName)) ∧
      (∀ (json : JsonLib) (req : Request),
        client.NewRequest "POST" "/_aliases" = Except.ok req →
        ((runCalls (NewAliasService client) calls).Do json).sent
          = [req.SetBodyJson (Json.obj [("actions", Json.arr entries)])]) := by
  have hact : (runCalls (NewAliasService client) calls).actions = calls.map Call.action := by
    rw [runCalls_actions]; simp [NewAliasService]
  have hclient : (runCalls (NewAliasService client) calls).client = client := by
    rw [runCalls_frame]; rfl
  refine ⟨actionsJson (calls.map Call.action), ?_, ?_, ?_, ?_⟩
  · rw [body_eq, hact]
  · rw [actionsJson_length, List.length_map]
  · intro i call hcall
    refine ⟨detailsJson call.action, ?_, detailsJson_index_call call, detailsJson_alias_call call⟩
    rw [actionsJson_eq_map, List.getElem?_map, List.getElem?_map, hcall]
    simp only [Option.map_some']
    rw [actionJson_eq, Call_action_type]
  · intro json req hreq
    have h := Do_sent_of_request json (runCalls (NewAliasService client) calls) req
      (by rw [hclient]; exact hreq)
    rw [h, body_eq, hact]

/-- C2: for every builder, index name and alias name, the body `Do` builds after
Add ends with an "add" entry whose details map has exactly the keys "index" and
"alias", and no key "filter"; after AddWithFilter with a filter f it ends with an
"add" entry whose details map holds exactly `f.Source` under the key "filter". -/
theorem C2_filter_key_only_with_filter (s : AliasService) (indexName aliasName : String)
    (f : Filter) :
    (∃ details : GoMap,
      (s.Add indexName aliasName).body
        = [("actions", Json.arr
            (actionsJson s.actions ++ [Json.obj [("add", Json.obj details)]]))] ∧
      details.keys = ["index", "alias"] ∧
      details.get "index" = some (Json.str indexName) ∧
      details.get "alias" = some (Json.str aliasName) ∧
      details.get "filter" = none) ∧
    (∃ details : GoMap,
      (s.AddWithFilter indexName aliasName (some f)).body
        = [("actions", Json.arr
            (actionsJson s.actions ++ [Json.obj [("add", Json.obj details)]]))] ∧
      details.keys = ["index", "alias", "filter"] ∧
      details.get "index" = some (Json.str indexName) ∧
      details.get "alias" = some (Json.str aliasName) ∧
      details.get "filter" = some f.Source) := by
  constructor
  · refine ⟨[("index", Json.str indexName), ("alias", Json.str aliasName)], ?_, ?_, ?_, ?_, ?_⟩
    · rw [body_eq]
      simp only [AliasService.Add]
      rw [actionsJson_append]
      simp [actionsJson_eq_map, actionJson_eq, detailsJson_nil_filter]
    · rfl
    · simp [GoMap.get, List.lookup]
    · simp [GoMap.get, List.lookup]
    · simp [GoMap.get, List.lookup]
  · refine ⟨[("index", Json.str indexName), ("alias", Json.str aliasName),
      ("filter", f.Source)], ?_, ?_, ?_, ?_, ?_⟩
    · rw [body_eq]
      simp only [AliasService.AddWithFilter]
      rw [actionsJson_append]
      simp [actionsJson_eq_map, actionJson_eq,
        detailsJson_with_filter
          { Type_ := "add", Index := indexName, Alias := aliasName, Filter := some f } f rfl]
    · rfl
    · simp [GoMap.get, List.lookup]
    · simp [GoMap.get, List.lookup]
    · simp [GoMap.get, List.lookup]

/-- C3, as stated, fails: the serialization loop does not look at the type of an
action, so for a batch holding a "remove" action whose Filter field holds a filter
the entry built has the key "filter". -/
theorem C3_remove_with_filter_has_filter_key :
    removeHoldingFilter.Type_ = "remove" ∧
    (batchOf [removeHoldingFilter]).body
      = [("actions", Json.arr
          [Json.obj [("remove", Json.obj [("index", Json.str "logs-2023"),
            ("alias", Json.str "logs-current"), ("filter", Json.str "f")])]])] ∧
    (detailsJson removeHoldingFilter).keys ≠ ["index", "alias"] := by
  refine ⟨rfl, rfl, ?_⟩
  decide

/-- C3, amended: for every action of the batch whose type is "remove" and whose
Filter field is nil, the entry the serialization loop produces at its place is keyed
"remove" and its details map has exactly the keys "index" and "alias", hence no key
"filter". -/
theorem C3_remove_without_filter (s : AliasService) (i : Nat) (action : aliasAction)
    (hat : s.actions[i]? = some action)
    (htype : action.Type_ = "remove") (hfilter : action.Filter = none) :
    ∃ details : GoMap,
      (actionsJson s.actions)[i]? = some (Json.obj [("remove", Json.obj details)]) ∧
      details.keys = ["index", "alias"] ∧
      details.get "index" = some (Json.str action.Index) ∧
      details.get "alias" = some (Json.str action.Alias) ∧
      details.get "filter" = none := by
  refine ⟨[("index", Json.str action.Index), ("alias", Json.str action.Alias)],
    ?_, rfl, ?_, ?_, ?_⟩
  · rw [actionsJson_eq_map, List.getElem?_map, hat]
    simp [actionJson_eq, detailsJson_nil_filter action hfilter, htype]
  · simp [GoMap.get, List.lookup]
  · simp [GoMap.get, List.lookup]
  · simp [GoMap.get, List.lookup]

/-- C3, amended, at the second action of the batch recorded by
`Add("logs-2024", "logs-current")` and `Remove("logs-2023", "logs-current")`. -/
theorem C3_remove_without_filter_witness :
    ∃ details : GoMap,
      (actionsJson (((batchOf []).Add "logs-2024" "logs-current").Remove
        "logs-2023" "logs-current").actions)[1]?
          = some (Json.obj [("remove", Json.obj details)]) ∧
      details.keys = ["index", "alias"] ∧
      details.get "index" = some (Json.str removeRecorded.Index) ∧
      details.get "alias" = some (Json.str removeRecorded.Alias) ∧
      details.get "filter" = none :=
  C3_remove_without_filter
    (((batchOf []).Add "logs-2024" "logs-current").Remove "logs-2023" "logs-current")
    1 removeRecorded rfl rfl rfl

/-! ## The request -/

/-- C4, on the code: with Pretty(true) in effect, `Do` computes the text
"/_aliases?pretty=true" in its local variable, but the request it hands to the
transport was created before that, for the path "/_aliases", and carries no query
parameter. -/
theorem C4_pretty_not_in_request :
    (((NewAliasService (stubClient { StatusCode := 200, Body := okAckText true true })).Pretty
        true).Do stubJson).sent
      = [{ Method := "POST", URL := "/_aliases",
           Body := some (Json.obj [("actions", Json.arr [])]) }] ∧
    (((NewAliasService (stubClient { StatusCode := 200, Body := okAckText true true })).Pretty
        true).Do stubJson).urls = "/_aliases?pretty=true" := by
  constructor
  · rfl
  · decide

/-- C5: the body depends on the recorded actions only. Two builders holding the same
action sequence build the same body, whatever their flags and clients; and if their
clients are the same, `Do` hands the same requests to the transport. -/
theorem C5_body_depends_on_actions_only (s₁ s₂ : AliasService)
    (hactions : s₁.actions = s₂.actions) :
    s₁.body = s₂.body ∧
    (∀ json : JsonLib, s₁.client = s₂.client → (s₁.Do json).sent = (s₂.Do json).sent) := by
  have hbody : s₁.body = s₂.body := by rw [body_eq, body_eq, hactions]
  refine ⟨hbody, ?_⟩
  intro json hclient
  cases hreq : s₁.client.NewRequest "POST" "/_aliases" with
  | error e =>
    rw [(Do_sent_of_request_error json s₁ e hreq).1,
      (Do_sent_of_request_error json s₂ e (by rw [← hclient]; exact hreq)).1]
  | ok req =>
    rw [Do_sent_of_request json s₁ req hreq,
      Do_sent_of_request json s₂ req (by rw [← hclient]; exact hreq), hbody]

/-- C5 at two builders with the same two actions, one plain, one with both flags on. -/
theorem C5_body_depends_on_actions_only_witness :
    ((((NewAliasService (stubClient { StatusCode := 200, Body := okAckText true true })).Add
        "logs-2024" "logs-current").Remove "logs-2023" "logs-current").body
      = (((((NewAliasService (stubClient { StatusCode := 200, Body := okAckText true true })).Pretty
        true).Debug true).Add "logs-2024" "logs-current").Remove
          "logs-2023" "logs-current").body) ∧
    (∀ json : JsonLib,
      (((NewAliasService (stubClient { StatusCode := 200, Body := okAckText true true })).Add
        "logs-2024" "logs-current").Remove "logs-2023" "logs-current").client
      = (((((NewAliasService (stubClient { StatusCode := 200, Body := okAckText true true })).Pretty
        true).Debug true).Add "logs-2024" "logs-current").Remove
          "logs-2023" "logs-current").client →
      ((((NewAliasService (stubClient { StatusCode := 200, Body := okAckText true true })).Add
        "logs-2024" "logs-current").Remove "logs-2023" "logs-current").Do json).sent
      = ((((((NewAliasService (stubClient { StatusCode := 200, Body := okAckText true true })).Pretty
        true).Debug true).Add "logs-2024" "logs-current").Remove
          "logs-2023" "logs-current").Do json).sent) :=
  C5_body_depends_on_actions_only _ _ rfl

/-! ## The response -/

/-- C6: for every response whose status is outside 200..299, whatever its body, the
status check yields the service error carrying that status and body, and `Do`
returns that error and a nil result; the text reader of the JSON library plays no
part in the call, so the body is never decoded. -/
theorem C6_non_success_status_is_service_error (json : JsonLib) (s : AliasService)
    (req : Request) (res : Response)
    (hreq : s.client.NewRequest "POST" "/_aliases" = Except.ok req)
    (hres : s.client.c.Do (req.SetBodyJson (Json.obj s.body)) = Except.ok res)
    (hstatus : ¬ (200 ≤ res.StatusCode ∧ res.StatusCode ≤ 299)) :
    checkResponse res = some (GoError.service res.StatusCode res.Body) ∧
    (s.Do json).result = none ∧
    (s.Do json).err = some (GoError.service res.StatusCode res.Body) ∧
    (∀ json' : JsonLib, s.Do json' = s.Do json) := by
  have hc : checkResponse res = some (GoError.service res.StatusCode res.Body) := by
    unfold checkResponse
    rw [if_neg hstatus]
  refine ⟨hc, ?_, ?_, ?_⟩
  · rw [Do_of_status_error json s req res _ hreq hres hc]
  · rw [Do_of_status_error json s req res _ hreq hres hc]
  · intro json'
    rw [Do_of_status_error json s req res _ hreq hres hc,
      Do_of_status_error json' s req res _ hreq hres hc]

/-- C6 at status 400 with the well-formed body `{"ok":true,"acknowledged":true}`. -/
theorem C6_non_success_status_is_service_error_witness :
    checkResponse { StatusCode := 400, Body := okAckText true true }
      = some (GoError.service 400 (okAckText true true)) ∧
    ((NewAliasService (stubClient { StatusCode := 400, Body := okAckText true true })).Do
      stubJson).result = none ∧
    ((NewAliasService (stubClient { StatusCode := 400, Body := okAckText true true })).Do
      stubJson).err = some (GoError.service 400 (okAckText true true)) ∧
    (∀ json' : JsonLib,
      (NewAliasService (stubClient { StatusCode := 400, Body := okAckText true true })).Do json'
      = (NewAliasService (stubClient { StatusCode := 400, Body := okAckText true true })).Do
        stubJson) :=
  C6_non_success_status_is_service_error stubJson
    (NewAliasService (stubClient { StatusCode := 400, Body := okAckText true true }))
    { Method := "POST", URL := "/_aliases", Body := none }
    { StatusCode := 400, Body := okAckText true true } rfl rfl (by decide)

/-- C7: when the transport fails, `Do` returns exactly the transport's error and a
nil result, and the transport was invoked once, with the request built. -/
theorem C7_transport_failure_unchanged (json : JsonLib) (s : AliasService)
    (req : Request) (e : GoError)
    (hreq : s.client.NewRequest "POST" "/_aliases" = Except.ok req)
    (hfail : s.client.c.Do (req.SetBodyJson (Json.obj s.body)) = Except.error e) :
    (s.Do json).result = none ∧
    (s.Do json).err = some e ∧
    (s.Do json).sent = [req.SetBodyJson (Json.obj s.body)] := by
  refine ⟨?_, ?_, Do_sent_of_request json s req hreq⟩
  · rw [Do_of_transport_error json s req e hreq hfail]
  · rw [Do_of_transport_error json s req e hreq hfail]

/-- C7 at a client whose transport reports a refused connection. -/
theorem C7_transport_failure_unchanged_witness :
    ((NewAliasService (failingClient (GoError.transport "connection refused"))).Do
      stubJson).result = none ∧
    ((NewAliasService (failingClient (GoError.transport "connection refused"))).Do
      stubJson).err = some (GoError.transport "connection refused") ∧
    ((NewAliasService (failingClient (GoError.transport "connection refused"))).Do
      stubJson).sent
      = [Request.SetBodyJson { Method := "POST", URL := "/_aliases", Body := none }
          (Json.obj (NewAliasService
            (failingClient (GoError.transport "connection refused"))).body)] :=
  C7_transport_failure_unchanged stubJson
    (NewAliasService (failingClient (GoError.transport "connection refused")))
    { Method := "POST", URL := "/_aliases", Body := none }
    (GoError.transport "connection refused") rfl rfl

/-- C8, as stated, fails: the decoder reads one value from the start of the body
and leaves the rest unread. The body `{"ok":true,"acknowledged":true}<html>garbage`
is not well-formed JSON, yet with status 200 `Do` returns the result with Ok and Ack
true and a nil error. -/
theorem C8_text_after_first_value_is_not_read :
    wellFormedJson bodyWithTrailingText = false ∧
    checkResponse { StatusCode := 200, Body := bodyWithTrailingText } = none ∧
    ((NewAliasService (stubClient { StatusCode := 200, Body := bodyWithTrailingText })).Do
      goJson).result = some { Ok := true, Ack := true } ∧
    ((NewAliasService (stubClient { StatusCode := 200, Body := bodyWithTrailingText })).Do
      goJson).err = none :=
  ⟨rfl, rfl, rfl, rfl⟩

/-- C8, amended: for every response that passes the status check (a success status)
and from whose body the JSON decoder cannot read a value, because the body does not
begin with a well-formed JSON value, `Do` returns the decoder's error and a nil
result. -/
theorem C8_unreadable_body_is_decode_error (json : JsonLib) (s : AliasService)
    (req : Request) (res : Response) (e : GoError)
    (hreq : s.client.NewRequest "POST" "/_aliases" = Except.ok req)
    (hres : s.client.c.Do (req.SetBodyJson (Json.obj s.body)) = Except.ok res)
    (hstatus : checkResponse res = none)
    (hbad : json.readValue res.Body = Except.error e) :
    (s.Do json).result = none ∧ (s.Do json).err = some e := by
  have hdec : json.Decode res.Body { Ok := false, Ack := false }
      = ({ Ok := false, Ack := false }, some e) := by
    unfold JsonLib.Decode
    rw [hbad]
  rw [Do_of_decode_error json s req res _ e hreq hres hstatus hdec]
  exact ⟨rfl, rfl⟩

/-- C8, amended, at status 200 with the truncated body `{"ok":tru`, read by the
stream decoder. -/
theorem C8_unreadable_body_is_decode_error_witness :
    ((NewAliasService (stubClient { StatusCode := 200, Body := "\x7b\"ok\":tru" })).Do
      goJson).result = none ∧
    ((NewAliasService (stubClient { StatusCode := 200, Body := "\x7b\"ok\":tru" })).Do
      goJson).err = some (GoError.malformed "unexpected end of JSON input") :=
  C8_unreadable_body_is_decode_error goJson
    (NewAliasService (stubClient { StatusCode := 200, Body := "\x7b\"ok\":tru" }))
    { Method := "POST", URL := "/_aliases", Body := none }
    { StatusCode := 200, Body := "\x7b\"ok\":tru" }
    (GoError.malformed "unexpected end of JSON input") rfl rfl rfl rfl

/-- C9: for all booleans b1 and b2, a response that passes the status check (a
success status) and whose body reads as the object with "ok" = b1 and
"acknowledged" = b2 makes `Do` return, with a nil error, the result with Ok = b1 and
Ack = b2. -/
theorem C9_ok_ack_decoded (json : JsonLib) (s : AliasService)
    (req : Request) (res : Response) (b1 b2 : Bool)
    (hreq : s.client.NewRequest "POST" "/_aliases" = Except.ok req)
    (hres : s.client.c.Do (req.SetBodyJson (Json.obj s.body)) = Except.ok res)
    (hstatus : checkResponse res = none)
    (hbody : json.readValue res.Body
      = Except.ok (Json.obj [("ok", Json.bool b1), ("acknowledged", Json.bool b2)])) :
    (s.Do json).result = some { Ok := b1, Ack := b2 } ∧ (s.Do json).err = none := by
  have hc : checkResponse res = none := hstatus
  have hdec : json.Decode res.Body { Ok := false, Ack := false }
      = ({ Ok := b1, Ack := b2 }, none) := by
    unfold JsonLib.Decode
    rw [hbody]
    simp [decodeMembers, decodeMember]
  rw [Do_of_decoded json s req res _ hreq hres hc hdec]
  exact ⟨rfl, rfl⟩

/-- C9 at status 200 with the body `{"ok":true,"acknowledged":true}`. -/
theorem C9_ok_ack_decoded_witness :
    ((NewAliasService (stubClient { StatusCode := 200, Body := okAckText true true })).Do
      stubJson).result = some { Ok := true, Ack := true } ∧
    ((NewAliasService (stubClient { StatusCode := 200, Body := okAckText true true })).Do
      stubJson).err = none :=
  C9_ok_ack_decoded stubJson
    (NewAliasService (stubClient { StatusCode := 200, Body := okAckText true true }))
    { Method := "POST", URL := "/_aliases", Body := none }
    { StatusCode := 200, Body := okAckText true true } true true
    rfl rfl rfl rfl

/-! ## Recording -/

/-- C10: Add, AddWithFilter and Remove are total and change only the action
sequence: the new sequence is the old one followed by one action with the call's
type ("add", "add", "remove"), index, alias and filter (nil for Add and Remove); the
client and the two flags are unchanged. -/
theorem C10_recording_appends_one_action (s : AliasService) (indexName aliasName : String)
    (filter : Option Filter) :
    ((s.Add indexName aliasName).actions = s.actions ++
        [{ Type_ := "add", Index := indexName, Alias := aliasName, Filter := none }] ∧
      (s.Add indexName aliasName).client = s.client ∧
      (s.Add indexName aliasName).pretty = s.pretty ∧
      (s.Add indexName aliasName).debug = s.debug) ∧
    ((s.AddWithFilter indexName aliasName filter).actions = s.actions ++
        [{ Type_ := "add", Index := indexName, Alias := aliasName, Filter := filter }] ∧
      (s.AddWithFilter indexName aliasName filter).client = s.client ∧
      (s.AddWithFilter indexName aliasName filter).pretty = s.pretty ∧
      (s.AddWithFilter indexName aliasName filter).debug = s.debug) ∧
    ((s.Remove indexName aliasName).actions = s.actions ++
        [{ Type_ := "remove", Index := indexName, Alias := aliasName, Filter := none }] ∧
      (s.Remove indexName aliasName).client = s.client ∧
      (s.Remove indexName aliasName).pretty = s.pretty ∧
      (s.Remove indexName aliasName).debug = s.debug) :=
  ⟨⟨rfl, rfl, rfl, rfl⟩, ⟨rfl, rfl, rfl, rfl⟩, ⟨rfl, rfl, rfl, rfl⟩⟩

/-! ## Lemmas on the builder after `Do` and on reachable builders -/

theorem Do_builder (json : JsonLib) (s : AliasService) : (s.Do json).builder = s := by
  cases hreq : s.client.NewRequest "POST" "/_aliases" with
  | error e =>
    unfold AliasService.Do
    simp only [hreq]
  | ok req =>
    cases hres : s.client.c.Do (req.SetBodyJson (Json.obj s.body)) with
    | error e => rw [Do_of_transport_error json s req e hreq hres]
    | ok res =>
      cases hc : checkResponse res with
      | some e => rw [Do_of_status_error json s req res e hreq hres hc]
      | none =>
        cases hdec : json.Decode res.Body { Ok := false, Ack := false } with
        | mk ret e =>
          cases e with
          | none => rw [Do_of_decoded json s req res ret hreq hres hc hdec]
          | some e => rw [Do_of_decode_error json s req res ret e hreq hres hc hdec]

theorem Do_sent_ignores_transport (json json' : JsonLib) (s : AliasService)
    (c : HttpClient) :
    ((s.withTransport c).Do json').sent = (s.Do json).sent := by
  have hbody : (s.withTransport c).body = s.body := rfl
  cases hreq : s.client.NewRequest "POST" "/_aliases" with
  | error e =>
    rw [(Do_sent_of_request_error json s e hreq).1,
      (Do_sent_of_request_error json' (s.withTransport c) e hreq).1]
  | ok req =>
    rw [Do_sent_of_request json s req hreq,
      Do_sent_of_request json' (s.withTransport c) req hreq, hbody]

theorem Op_run_wellFormed (s : AliasService) (op : Op)
    (h : ∀ action ∈ s.actions, action.wellFormed) :
    ∀ action ∈ (op.run s).actions, action.wellFormed := by
  cases op with
  | Pretty b => exact h
  | Debug b => exact h
  | Do json =>
    simp only [Op.run]
    rw [Do_builder]
    exact h
  | Add i a =>
    intro action hmem
    simp only [Op.run, AliasService.Add, List.mem_append, List.mem_singleton] at hmem
    rcases hmem with hmem | rfl
    · exact h action hmem
    · exact ⟨Or.inl rfl, fun hr => by simp at hr⟩
  | AddWithFilter i a f =>
    intro action hmem
    simp only [Op.run, AliasService.AddWithFilter, List.mem_append, List.mem_singleton] at hmem
    rcases hmem with hmem | rfl
    · exact h action hmem
    · exact ⟨Or.inl rfl, fun hr => by simp at hr⟩
  | Remove i a =>
    intro action hmem
    simp only [Op.run, AliasService.Remove, List.mem_append, List.mem_singleton] at hmem
    rcases hmem with hmem | rfl
    · exact h action hmem
    · exact ⟨Or.inr rfl, fun _ => rfl⟩

theorem runOps_wellFormed (s : AliasService) (ops : List Op)
    (h : ∀ action ∈ s.actions, action.wellFormed) :
    ∀ action ∈ (runOps s ops).actions, action.wellFormed := by
  induction ops generalizing s with
  | nil => exact h
  | cons op rest ih =>
    have hstep := ih (op.run s) (Op_run_wellFormed s op h)
    simpa only [runOps, List.foldl] using hstep

/-! ## The options, and the builder after `Do` -/

/-- C11: for every builder and boolean b, Pretty(b) is total, sets the pretty option
to b and leaves the action sequence, the client and the debug flag as they were;
Debug(b) sets the debug flag to b and leaves the action sequence, the client and the
pretty option as they were. -/
theorem C11_setters_change_one_flag (s : AliasService) (b : Bool) :
    ((s.Pretty b).pretty = b ∧
      (s.Pretty b).actions = s.actions ∧
      (s.Pretty b).client = s.client ∧
      (s.Pretty b).debug = s.debug) ∧
    ((s.Debug b).debug = b ∧
      (s.Debug b).actions = s.actions ∧
      (s.Debug b).client = s.client ∧
      (s.Debug b).pretty = s.pretty) :=
  ⟨⟨rfl, rfl, rfl, rfl⟩, ⟨rfl, rfl, rfl, rfl⟩⟩

/-- C12: `Do` does not change the builder. Whatever the call meets (a request that
cannot be created, a transport failure, a non-success status, a decode failure, a
success), the builder after it is the builder before it, with the same actions and
options and hence the same body; a second `Do` hands the transport the same
requests as the first, whatever the transport and the JSON library do that time. -/
theorem C12_Do_leaves_builder_unchanged (json : JsonLib) (s : AliasService) :
    (s.Do json).builder = s ∧
    (s.Do json).builder.actions = s.actions ∧
    (s.Do json).builder.pretty = s.pretty ∧
    (s.Do json).builder.debug = s.debug ∧
    (s.Do json).builder.body = s.body ∧
    (∀ (json' : JsonLib) (c : HttpClient),
      (((s.Do json).builder.withTransport c).Do json').sent = (s.Do json).sent) := by
  have hb := Do_builder json s
  refine ⟨hb, ?_, ?_, ?_, ?_, ?_⟩
  · rw [hb]
  · rw [hb]
  · rw [hb]
  · rw [hb]
  · intro json' c
    rw [hb]
    exact Do_sent_ignores_transport json json' s c

/-- C13: serialization is entry-wise. The list built for xs followed by ys is the
list built for xs followed by the list built for ys, and there is one function of a
single action that gives every entry. Hence recording Add(i, a) then Remove(i, a),
or the same Add twice, yields two entries in recording order, nothing merged or
dropped. -/
theorem C13_serialization_is_entrywise (xs ys : List aliasAction) (s : AliasService)
    (indexName aliasName : String) :
    actionsJson (xs ++ ys) = actionsJson xs ++ actionsJson ys ∧
    (∃ entry : aliasAction → Json, ∀ zs : List aliasAction, actionsJson zs = zs.map entry) ∧
    actionsJson ((s.Add indexName aliasName).Remove indexName aliasName).actions
      = actionsJson s.actions ++
        [Json.obj [("add", Json.obj
            [("index", Json.str indexName), ("alias", Json.str aliasName)])],
         Json.obj [("remove", Json.obj
            [("index", Json.str indexName), ("alias", Json.str aliasName)])]] ∧
    actionsJson ((s.Add indexName aliasName).Add indexName aliasName).actions
      = actionsJson s.actions ++
        [Json.obj [("add", Json.obj
            [("index", Json.str indexName), ("alias", Json.str aliasName)])],
         Json.obj [("add", Json.obj
            [("index", Json.str indexName), ("alias", Json.str aliasName)])]] := by
  refine ⟨actionsJson_append xs ys, ⟨fun action => Json.obj (actionJson action),
    actionsJson_eq_map⟩, ?_, ?_⟩
  · simp only [AliasService.Add, AliasService.Remove, List.append_assoc]
    rw [actionsJson_append]
    simp [actionsJson_eq_map, actionJson_eq, detailsJson_nil_filter]
  · simp only [AliasService.Add, List.append_assoc]
    rw [actionsJson_append]
    simp [actionsJson_eq_map, actionJson_eq, detailsJson_nil_filter]

/-- C14, as stated, fails: after a successful `Do` on a builder with one recorded
mutation, the builder still holds that mutation. -/
theorem C14_actions_kept_after_Do :
    (((batchOf []).Add "logs-2024" "logs-current").Do stubJson).result
      = some { Ok := true, Ack := true } ∧
    (((batchOf []).Add "logs-2024" "logs-current").Do stubJson).builder.actions.length = 1 ∧
    (((batchOf []).Add "logs-2024" "logs-current").Do stubJson).builder.actions ≠ [] := by
  refine ⟨rfl, rfl, ?_⟩
  rw [Do_builder]
  simp [AliasService.Add]

/-- C14, amended: recorded mutations are kept when the batch has been serialized.
For every builder, after `Do` returns the builder's action sequence is the one it
had before the call; it is empty exactly when no mutation had been recorded. -/
theorem C14_Do_retains_actions (json : JsonLib) (s : AliasService) :
    (s.Do json).builder.actions = s.actions ∧
    ((s.Do json).builder.actions = [] ↔ s.actions = []) := by
  rw [Do_builder]
  exact ⟨rfl, Iff.rfl⟩

/-! ## Reachable builders -/

/-- C15: for every builder reached from NewAliasService by a finite sequence of
Pretty, Debug, Add, AddWithFilter, Remove and Do calls, every action has type "add"
or "remove" and every "remove" action has a nil Filter; hence every entry of the
payload is a map with the single key "add" or "remove", and the details of a
"remove" entry have exactly the keys "index" and "alias", no key "filter". -/
theorem C15_reachable_actions_well_formed (client : Client) (ops : List Op) :
    (∀ action ∈ (runOps (NewAliasService client) ops).actions,
      (action.Type_ = "add" ∨ action.Type_ = "remove") ∧
      (action.Type_ = "remove" → action.Filter = none)) ∧
    (∀ entry ∈ actionsJson (runOps (NewAliasService client) ops).actions,
      ∃ (key : String) (details : GoMap),
        entry = Json.obj [(key, Json.obj details)] ∧
        (key = "add" ∨ key = "remove") ∧
        (key = "remove" →
          details.keys = ["index", "alias"] ∧ details.get "filter" = none)) := by
  have hinv : ∀ action ∈ (runOps (NewAliasService client) ops).actions,
      action.wellFormed :=
    runOps_wellFormed (NewAliasService client) ops
      (by intro action hmem; simp [NewAliasService] at hmem)
  refine ⟨hinv, ?_⟩
  intro entry hentry
  rw [actionsJson_eq_map, List.mem_map] at hentry
  obtain ⟨action, hmem, rfl⟩ := hentry
  obtain ⟨htype, hfilter⟩ := hinv action hmem
  refine ⟨action.Type_, detailsJson action, ?_, htype, ?_⟩
  · rw [actionJson_eq]
  · intro hremove
    rw [detailsJson_nil_filter action (hfilter hremove)]
    exact ⟨rfl, by simp [GoMap.get, List.lookup]⟩

/-- C16: AddWithFilter with a nil filter is Add. For every builder, index name and
alias name, AddWithFilter(index, alias, nil) leaves the builder in the state that
Add(index, alias) leaves it in, and the entry serialized for it has exactly the keys
"index" and "alias", no key "filter". -/
theorem C16_AddWithFilter_nil_is_Add (s : AliasService) (indexName aliasName : String) :
    s.AddWithFilter indexName aliasName none = s.Add indexName aliasName ∧
    (∃ details : GoMap,
      (s.AddWithFilter indexName aliasName none).body
        = [("actions", Json.arr
            (actionsJson s.actions ++ [Json.obj [("add", Json.obj details)]]))] ∧
      details.keys = ["index", "alias"] ∧
      details.get "index" = some (Json.str indexName) ∧
      details.get "alias" = some (Json.str aliasName) ∧
      details.get "filter" = none) := by
  refine ⟨rfl, [("index", Json.str indexName), ("alias", Json.str aliasName)],
    ?_, rfl, ?_, ?_, ?_⟩
  · rw [body_eq]
    simp only [AliasService.AddWithFilter]
    rw [actionsJson_append]
    simp [actionsJson_eq_map, actionJson_eq, detailsJson_nil_filter]
  · simp [GoMap.get, List.lookup]
  · simp [GoMap.get, List.lookup]
  · simp [GoMap.get, List.lookup]

/-- C17: a builder fresh from NewAliasService has an empty action sequence and both
flags false; and for every builder with no recorded mutation the body `Do` builds is
the map with the single key "actions" holding the empty list (present, and a list,
not null), which is the body of the request handed to the transport. -/
theorem C17_no_mutation_empty_actions_list (client : Client) (s : AliasService)
    (hempty : s.actions = []) :
    ((NewAliasService client).actions = [] ∧
      (NewAliasService client).pretty = false ∧
      (NewAliasService client).debug = false) ∧
    s.body = [("actions", Json.arr [])] ∧
    s.body.keys = ["actions"] ∧
    s.body.get "actions" = some (Json.arr []) ∧
    s.body.get "actions" ≠ some Json.null ∧
    (∀ (json : JsonLib) (req : Request),
      s.client.NewRequest "POST" "/_aliases" = Except.ok req →
      (s.Do json).sent = [req.SetBodyJson (Json.obj [("actions", Json.arr [])])]) := by
  have hbody : s.body = [("actions", Json.arr [])] := by
    rw [body_eq, hempty]; rfl
  refine ⟨⟨rfl, rfl, rfl⟩, hbody, ?_, ?_, ?_, ?_⟩
  · rw [hbody]; rfl
  · rw [hbody]; simp [GoMap.get, List.lookup]
  · rw [hbody]; simp [GoMap.get, List.lookup]
  · intro json req hreq
    rw [Do_sent_of_request json s req hreq, hbody]

/-- C17 at the fresh builder of the client that answers 200 with the body
`{"ok":true,"acknowledged":true}`. -/
theorem C17_no_mutation_empty_actions_list_witness :
    ((NewAliasService (stubClient { StatusCode := 200, Body := okAckText true true })).actions
        = [] ∧
      (NewAliasService (stubClient { StatusCode := 200, Body := okAckText true true })).pretty
        = false ∧
      (NewAliasService (stubClient { StatusCode := 200, Body := okAckText true true })).debug
        = false) ∧
    (batchOf []).body = [("actions", Json.arr [])] ∧
    (batchOf []).body.keys = ["actions"] ∧
    (batchOf []).body.get "actions" = some (Json.arr []) ∧
    (batchOf []).body.get "actions" ≠ some Json.null ∧
    (∀ (json : JsonLib) (req : Request),
      (batchOf []).client.NewRequest "POST" "/_aliases" = Except.ok req →
      ((batchOf []).Do json).sent
        = [req.SetBodyJson (Json.obj [("actions", Json.arr [])])]) :=
  C17_no_mutation_empty_actions_list
    (stubClient { StatusCode := 200, Body := okAckText true true }) (batchOf []) rfl

end Elastic
